import Mathlib

/-! The agent registry of turtlesim, `TurtleFrame`.

A shallow embedding of `turtlesim/src/turtle_frame.cpp`: the registry of named
turtles (`turtles_`, a `std::map<std::string, TurtlePtr>`), the id counter used
for auto-generated names, the trail canvas `path_image_`, and the operations
`spawnTurtle`, `clear`, `updateTurtles` together with the four service
call-backs (`clear`, `reset`, `spawn`, `kill`).

Modelling conventions.

* `float` / `qreal` quantities are exact rationals (`ℚ`).
* `id_counter_` and `frame_count_` are unbounded naturals.
* `std::map` is a key-sorted association list; `find`, `erase(iterator)` and
  `operator[]`-assignment are the three library operations the file uses.
* `QWidget::update()` only schedules a repaint; the field `repaints` counts
  how many times it has been requested.
* The node `nh_` is seen through the parameter values it was started with
  (`nh_parameters`); `declare_parameter(name, default)` returns the value the
  parameter takes: the configured one, or else the default.
* `Turtle` (its class is declared elsewhere) is the record of the arguments
  its constructor receives; `Turtle::update` is a parameter `upd`.
* The `do … while` loop of `spawnTurtle` is run with an explicit iteration
  budget; `none` means that the budget did not suffice to leave the loop.
-/

namespace turtlesim

/-! ## Qt value types -/

/-- A `QPointF`: a point with two real coordinates. -/
structure QPointF where
  x : ℚ
  y : ℚ
deriving DecidableEq, Repr

/-- A `QRgb` value: `0xAARRGGBB` as a number. -/
abbrev QRgb := Nat

/-- Qt's `qRgb(r, g, b)`: opaque alpha and the three channels masked to eight bits. -/
def qRgb (r g b : Nat) : QRgb :=
  0xff * 2 ^ 24 + (r % 256) * 2 ^ 16 + (g % 256) * 2 ^ 8 + b % 256

/-- A `QImage`: its size and its pixels in row-major order. -/
structure QImage where
  width : Nat
  height : Nat
  pixels : List QRgb
deriving DecidableEq, Repr

/-- `QImage::fill(c)`: every pixel becomes `c`. -/
def QImage.fill (img : QImage) (c : QRgb) : QImage :=
  { img with pixels := img.pixels.map (fun _ => c) }

/-! ## Constants of the translation unit -/

def DEFAULT_BG_R : Nat := 0x45
def DEFAULT_BG_G : Nat := 0x56
def DEFAULT_BG_B : Nat := 0xff

/-- Number of sprites appended to `turtle_images_` by the constructor. -/
def turtle_images_size : Nat := 13

/-! ## Turtles and the registry map -/

/-- A turtle as built by `std::make_shared<Turtle>(nh_, image, pos, orient)`:
the sprite (its index in `turtle_images_`), the position in Qt's frame
(y grows downwards) and the heading. -/
structure Turtle where
  image : Nat
  pos : QPointF
  orient : ℚ
deriving DecidableEq, Repr

/-- The type `M_Turtle`, a `std::map<std::string, TurtlePtr>`: entries in iteration order. -/
abbrev M_Turtle := List (String × Turtle)

/-- The key order of the map, `std::less<std::string>`: lexicographic comparison of the
characters. -/
def nameLt (a b : String) : Bool := decide (a.toList < b.toList)

/-- The keys of the map in iteration order. -/
def M_Turtle.keys (m : M_Turtle) : List String := m.map Prod.fst

/-- The `std::map` invariant: keys strictly ascending in iteration order. -/
def M_Turtle.WF (m : M_Turtle) : Prop := m.keys.Pairwise (fun a b => nameLt a b = true)

instance (m : M_Turtle) : Decidable m.WF :=
  inferInstanceAs (Decidable (List.Pairwise (fun a b => nameLt a b = true) m.keys))

/-- `m.find(name)`: the mapped turtle, or `none` for `end()`. -/
def M_Turtle.find : M_Turtle → String → Option Turtle
  | [], _ => none
  | (k, t) :: rest, name => if k = name then some t else M_Turtle.find rest name

/-- `m.erase(m.find(name))` for a key that was found: drops that one entry. -/
def M_Turtle.erase : M_Turtle → String → M_Turtle
  | [], _ => []
  | (k, t) :: rest, name => if k = name then rest else (k, t) :: M_Turtle.erase rest name

/-- `m[name] = t`: overwrite the entry of `name`, or insert it at its sorted place. -/
def M_Turtle.assign : M_Turtle → String → Turtle → M_Turtle
  | [], name, t => [(name, t)]
  | (k, t') :: rest, name, t =>
    if nameLt name k then (name, t) :: (k, t') :: rest
    else if nameLt k name then (k, t') :: M_Turtle.assign rest name t
    else (name, t) :: rest

/-! ## The frame -/

/-- The members of `TurtleFrame` that the registry operations read or write. -/
structure TurtleFrame where
  path_image_ : QImage
  frame_count_ : Nat
  id_counter_ : Nat
  turtles_ : M_Turtle
  last_turtle_update_ : Nat
  update_timer_interval : Nat
  width_in_meters_ : ℚ
  height_in_meters_ : ℚ
  repaints : Nat
  nh_parameters : List (String × Nat)
deriving DecidableEq, Repr

/-- `QWidget::update()`: one more repaint request. -/
def TurtleFrame.update (s : TurtleFrame) : TurtleFrame :=
  { s with repaints := s.repaints + 1 }

/-- `TurtleFrame::hasTurtle`. -/
def TurtleFrame.hasTurtle (s : TurtleFrame) (name : String) : Bool :=
  (s.turtles_.find name).isSome

/-- The text `ss << "turtle" << n` leaves in the stream. -/
def turtleName (n : Nat) : String := "turtle" ++ toString n

/-- The `do { ++id_counter_; … } while (hasTurtle(real_name))` loop of `spawnTurtle` over the
map `m`, run for at most `fuel` iterations from counter value `c`; the result is the counter
value at loop exit. The loop changes nothing but the counter, and `hasTurtle(real_name)` is
`m.find(real_name) != m.end()`. -/
def autoNameLoop (m : M_Turtle) : Nat → Nat → Option Nat
  | 0, _ => none
  | fuel + 1, c =>
    if (m.find (turtleName (c + 1))).isSome then autoNameLoop m fuel (c + 1)
    else some (c + 1)

/-- `TurtleFrame::spawnTurtle(name, x, y, angle, index)`. The result is the new frame and
the returned string (`""` for a refused name). -/
def TurtleFrame.spawnTurtle (fuel : Nat) (s : TurtleFrame) (name : String) (x y angle : ℚ)
    (index : Nat) : Option (TurtleFrame × String) :=
  let t : Turtle := ⟨index, ⟨x, s.height_in_meters_ - y⟩, angle⟩
  if name.isEmpty then
    match autoNameLoop s.turtles_ fuel s.id_counter_ with
    | none => none
    | some c =>
      some (({ s with id_counter_ := c,
                      turtles_ := s.turtles_.assign (turtleName c) t }).update, turtleName c)
  else if s.hasTurtle name then some (s, "")
  else some (({ s with turtles_ := s.turtles_.assign name t }).update, name)

/-- `TurtleFrame::spawnTurtle(name, x, y, angle)`: the sprite is `rand() % turtle_images_.size()`,
with `rnd` the value `rand()` returns. -/
def TurtleFrame.spawnTurtleRand (fuel : Nat) (rnd : Nat) (s : TurtleFrame) (name : String)
    (x y angle : ℚ) : Option (TurtleFrame × String) :=
  s.spawnTurtle fuel name x y angle (rnd % turtle_images_size)

/-- The call `nh_->declare_parameter(name, default_value)` on a node started with the parameter
values `params`: the value the parameter takes, which is also the value the call returns. -/
def declare_parameter (params : List (String × Nat)) (name : String) (default_value : Nat) :
    Nat :=
  (params.lookup name).getD default_value

/-- `TurtleFrame::clear()`. The three `declare_parameter` calls are made with `r`, `g`, `b` as
defaults and their results are dropped, so `r`, `g`, `b` stay as initialised. -/
def TurtleFrame.clear (s : TurtleFrame) : TurtleFrame :=
  let r := DEFAULT_BG_R
  let g := DEFAULT_BG_G
  let b := DEFAULT_BG_B
  let _ := declare_parameter s.nh_parameters "background_r" r
  let _ := declare_parameter s.nh_parameters "background_g" g
  let _ := declare_parameter s.nh_parameters "background_b" b
  ({ s with path_image_ := s.path_image_.fill (qRgb r g b) }).update

/-- The background colour the node is configured with: the parameters `background_r`,
`background_g`, `background_b` as the constructor declares them, with the `DEFAULT_BG_*`
constants as defaults. -/
def TurtleFrame.configuredBackground (s : TurtleFrame) : QRgb :=
  qRgb (declare_parameter s.nh_parameters "background_r" DEFAULT_BG_R)
    (declare_parameter s.nh_parameters "background_g" DEFAULT_BG_G)
    (declare_parameter s.nh_parameters "background_b" DEFAULT_BG_B)

/-! ## Service call-backs -/

/-- The `clear` service. -/
def clear_call_back (s : TurtleFrame) : TurtleFrame × Bool :=
  (s.clear, true)

/-- The `spawn` service: the new frame, the service result and the name written to the
response (`none` when the response is left untouched). -/
def spawn_call_back (fuel : Nat) (rnd : Nat) (s : TurtleFrame) (name : String) (x y theta : ℚ) :
    Option (TurtleFrame × Bool × Option String) :=
  match s.spawnTurtleRand fuel rnd name x y theta with
  | none => none
  | some (s', name') =>
    if name'.isEmpty then some (s', false, none)
    else some (s', true, some name')

/-- The `kill` service. -/
def kill_call_back (s : TurtleFrame) (name : String) : TurtleFrame × Bool :=
  match s.turtles_.find name with
  | none => (s, false)
  | some _ => (({ s with turtles_ := s.turtles_.erase name }).update, true)

/-! ## The periodic sweep -/

/-- The type of `Turtle::update(dt, painter, image, canvas_width, canvas_height)`: the turtle
and the canvas after the call, and the returned flag. -/
abbrev TurtleUpdate := ℚ → Turtle → QImage → ℚ → ℚ → Turtle × QImage × Bool

/-- State carried by the `for` loop of `updateTurtles`: the entries already visited, the
canvas, the flag `modified`, and the calls made so far (the entry the call was made on, as it
was before the call, and the returned flag). -/
structure Sweep where
  turtles_ : M_Turtle
  path_image_ : QImage
  modified : Bool
  calls : List ((String × Turtle) × Bool)
deriving DecidableEq, Repr

/-- The `for (; it != end; ++it)` loop of `updateTurtles` over the entries still ahead. -/
def sweepLoop (upd : TurtleUpdate) (dt w h : ℚ) : M_Turtle → Sweep → Sweep
  | [], acc => acc
  | (k, t) :: rest, acc =>
    let r := upd dt t acc.path_image_ w h
    sweepLoop upd dt w h rest
      { turtles_ := acc.turtles_ ++ [(k, r.1)],
        path_image_ := r.2.1,
        modified := acc.modified || r.2.2,
        calls := acc.calls ++ [((k, t), r.2.2)] }

/-- The canvas after `Turtle::update` has been applied, one after the other, to the entries `m`
starting from the canvas `img`. -/
def canvasAfter (upd : TurtleUpdate) (dt w h : ℚ) (img : QImage) (m : M_Turtle) : QImage :=
  m.foldl (fun i e => (upd dt e.2 i w h).2.1) img

/-- `TurtleFrame::updateTurtles()`, with `now` the value of `nh_->now()`. Returns the new frame
and the list of `Turtle::update` calls made (entry and returned flag), in order. -/
def TurtleFrame.updateTurtles (upd : TurtleUpdate) (now : Nat) (s : TurtleFrame) :
    TurtleFrame × List ((String × Turtle) × Bool) :=
  if s.last_turtle_update_ = 0 then
    ({ s with last_turtle_update_ := now }, [])
  else
    let dt : ℚ := (1 / 1000) * s.update_timer_interval
    let r := sweepLoop upd dt s.width_in_meters_ s.height_in_meters_ s.turtles_
      { turtles_ := [], path_image_ := s.path_image_, modified := false, calls := [] }
    let s1 := { s with turtles_ := r.turtles_, path_image_ := r.path_image_ }
    let s2 := if r.modified then s1.update else s1
    ({ s2 with frame_count_ := s2.frame_count_ + 1 }, r.calls)

/-- `TurtleFrame::onUpdate()`. -/
def TurtleFrame.onUpdate (upd : TurtleUpdate) (now : Nat) (s : TurtleFrame) :
    TurtleFrame × List ((String × Turtle) × Bool) :=
  s.updateTurtles upd now

/-! ## Sequences of spawn and kill requests -/

/-- A request to the `spawn` or to the `kill` service. -/
inductive Op where
  | spawn (name : String) (x y theta : ℚ) (rnd : Nat)
  | kill (name : String)
deriving DecidableEq, Repr

/-- What one request did: for a spawn the string `spawnTurtle` returned, for a kill the
name and whether a turtle was removed. -/
inductive Event where
  | spawned (requested : String) (returned : String)
  | killed (name : String) (ok : Bool)
deriving DecidableEq, Repr

/-- Serve one request. -/
def step (fuel : Nat) (s : TurtleFrame) : Op → Option (TurtleFrame × Event)
  | Op.spawn name x y theta rnd =>
    match s.spawnTurtleRand fuel rnd name x y theta with
    | none => none
    | some (s', r) => some (s', Event.spawned name r)
  | Op.kill name =>
    let r := kill_call_back s name
    some (r.1, Event.killed name r.2)

/-- Serve the requests in order, collecting what each did. -/
def run (fuel : Nat) : TurtleFrame → List Op → Option (TurtleFrame × List Event)
  | s, [] => some (s, [])
  | s, op :: ops =>
    match step fuel s op with
    | none => none
    | some (s1, e) =>
      match run fuel s1 ops with
      | none => none
      | some (s2, es) => some (s2, e :: es)

/-- The strings returned to the empty-name spawn requests, in order. -/
def autoNames : List Event → List String
  | [] => []
  | Event.spawned requested returned :: es =>
    if requested.isEmpty then returned :: autoNames es else autoNames es
  | Event.killed _ _ :: es => autoNames es

/-- Value of a string of decimal digits, most significant first. -/
def decimalValue (cs : List Char) : Nat :=
  cs.foldl (fun a c => 10 * a + (c.toNat - 48)) 0

/-- A small frame used in examples: no turtle, counter `0`, a 2×2 canvas. -/
def frame0 : TurtleFrame :=
  { path_image_ := ⟨2, 2, [1, 2, 3, 4]⟩, frame_count_ := 0, id_counter_ := 0, turtles_ := [],
    last_turtle_update_ := 0, update_timer_interval := 16,
    width_in_meters_ := 11, height_in_meters_ := 11, repaints := 0, nh_parameters := [] }

/-- A frame used in examples: turtles `"leo"` and `"turtle1"`, counter `0`, ticks running. -/
def frame1 : TurtleFrame :=
  { path_image_ := ⟨2, 2, [1, 2, 3, 4]⟩, frame_count_ := 7, id_counter_ := 0,
    turtles_ := [("leo", ⟨0, ⟨1, 2⟩, 0⟩), ("turtle1", ⟨1, ⟨3, 4⟩, 0⟩)],
    last_turtle_update_ := 5, update_timer_interval := 16,
    width_in_meters_ := 11, height_in_meters_ := 11, repaints := 0, nh_parameters := [] }

/-- A frame used in examples: as `frame1`, but no tick has run yet and the node was started with
a black background (`background_r`, `background_g`, `background_b` all `0`). -/
def frame2 : TurtleFrame :=
  { frame1 with
    last_turtle_update_ := 0,
    nh_parameters := [("background_r", 0), ("background_g", 0), ("background_b", 0)] }

/-- A stand-in for `Turtle::update` used in examples: the turtle moves one unit to the right,
the first pixel is inked, and a change is reported exactly for sprite `1`. -/
def sampleUpdate : TurtleUpdate := fun _ t img _ _ =>
  ({ t with pos := ⟨t.pos.x + 1, t.pos.y⟩ }, { img with pixels := 0 :: img.pixels.tail },
    t.image == 1)

/-! ## Decimal names are distinct -/

theorem decimalValue_append_single (cs : List Char) (c : Char) :
    decimalValue (cs ++ [c]) = 10 * decimalValue cs + (c.toNat - 48) := by
  simp [decimalValue, List.foldl_append]

theorem digitChar_toNat (d : Nat) (h : d < 10) : (Nat.digitChar d).toNat - 48 = d := by
  interval_cases d <;> rfl

theorem toDigitsCore_acc (fuel : Nat) : ∀ (n : Nat) (ds : List Char),
    Nat.toDigitsCore 10 fuel n ds = Nat.toDigitsCore 10 fuel n [] ++ ds := by
  induction fuel with
  | zero => intro n ds; simp [Nat.toDigitsCore]
  | succ f ih =>
    intro n ds
    simp only [Nat.toDigitsCore]
    by_cases h : n / 10 = 0
    · simp [h]
    · simp only [h, if_false]
      rw [ih (n / 10) (Nat.digitChar (n % 10) :: ds), ih (n / 10) [Nat.digitChar (n % 10)]]
      simp

theorem decimalValue_toDigitsCore (fuel : Nat) : ∀ n : Nat, n < fuel →
    decimalValue (Nat.toDigitsCore 10 fuel n []) = n := by
  induction fuel with
  | zero => intro n h; omega
  | succ f ih =>
    intro n hn
    simp only [Nat.toDigitsCore]
    have hd : (Nat.digitChar (n % 10)).toNat - 48 = n % 10 :=
      digitChar_toNat _ (Nat.mod_lt _ (by decide))
    by_cases h : n / 10 = 0
    · simp only [h, if_true]
      simp only [decimalValue, List.foldl, hd]
      omega
    · simp only [h, if_false]
      rw [toDigitsCore_acc, decimalValue_append_single, ih (n / 10) (by omega), hd]
      omega

theorem decimalValue_repr (n : Nat) : decimalValue (Nat.repr n).data = n := by
  simp only [Nat.repr, Nat.toDigits, List.asString]
  exact decimalValue_toDigitsCore (n + 1) n (Nat.lt_succ_self n)

theorem turtleName_injective : Function.Injective turtleName := by
  intro a b h
  have h1 : (turtleName a).data = (turtleName b).data := by rw [h]
  simp only [turtleName, String.data_append, toString] at h1
  have h2 := List.append_cancel_left h1
  have := congrArg decimalValue h2
  simpa [decimalValue_repr] using this

theorem isEmpty_eq_false_iff (s : String) : s.isEmpty = false ↔ s ≠ "" := by
  constructor
  · intro h e
    rw [(String.isEmpty_iff s).mpr e] at h
    exact Bool.noConfusion h
  · intro h
    cases hs : s.isEmpty
    · rfl
    · exact absurd ((String.isEmpty_iff s).mp hs) h

theorem turtleName_ne_empty (n : Nat) : turtleName n ≠ "" := by
  intro h
  have h1 : (turtleName n).data = ("" : String).data := by rw [h]
  simp [turtleName, String.data_append] at h1

/-! ## The key order -/

theorem nameLt_iff (a b : String) : nameLt a b = true ↔ a < b := by
  simp [nameLt, String.lt_iff_toList_lt]

theorem nameLt_irrefl (a : String) : nameLt a a = false := by
  have := lt_irrefl a
  rw [← nameLt_iff] at this
  simpa using this

theorem nameLt_trans {a b c : String} (h1 : nameLt a b = true) (h2 : nameLt b c = true) :
    nameLt a c = true := by
  rw [nameLt_iff] at *
  exact lt_trans h1 h2

theorem eq_of_not_nameLt {a b : String} (h1 : nameLt a b = false) (h2 : nameLt b a = false) :
    a = b := by
  have h1' : ¬ a < b := by rw [← nameLt_iff]; simp [h1]
  have h2' : ¬ b < a := by rw [← nameLt_iff]; simp [h2]
  exact le_antisymm (not_lt.mp h2') (not_lt.mp h1')

theorem ne_of_nameLt {a b : String} (h : nameLt a b = true) : a ≠ b := by
  intro e
  subst e
  rw [nameLt_irrefl] at h
  exact Bool.noConfusion h

/-! ## The map operations -/

theorem find_isSome_iff_mem_keys (m : M_Turtle) (name : String) :
    (m.find name).isSome = true ↔ name ∈ m.keys := by
  induction m with
  | nil => simp [M_Turtle.find, M_Turtle.keys]
  | cons e rest ih =>
    obtain ⟨k, t⟩ := e
    simp only [M_Turtle.find, M_Turtle.keys, List.map_cons, List.mem_cons]
    by_cases h : k = name
    · simp [h]
    · simp only [h, if_false]
      rw [ih]
      constructor
      · intro hm; exact Or.inr hm
      · rintro (hm | hm)
        · exact absurd hm.symm h
        · exact hm

theorem find_eq_none_iff (m : M_Turtle) (name : String) :
    m.find name = none ↔ name ∉ m.keys := by
  rw [← find_isSome_iff_mem_keys]
  cases m.find name <;> simp

theorem find_assign_self (m : M_Turtle) (name : String) (t : Turtle) :
    (m.assign name t).find name = some t := by
  induction m with
  | nil => simp [M_Turtle.assign, M_Turtle.find]
  | cons e rest ih =>
    obtain ⟨k, t'⟩ := e
    simp only [M_Turtle.assign]
    by_cases h1 : nameLt name k = true
    · simp [h1, M_Turtle.find]
    · by_cases h2 : nameLt k name = true
      · simp [h1, h2, M_Turtle.find, ne_of_nameLt h2, ih]
      · simp [h1, h2, M_Turtle.find]

theorem find_assign_ne (m : M_Turtle) (name other : String) (t : Turtle) (h : other ≠ name) :
    (m.assign name t).find other = m.find other := by
  induction m with
  | nil => simp [M_Turtle.assign, M_Turtle.find, Ne.symm h]
  | cons e rest ih =>
    obtain ⟨k, t'⟩ := e
    simp only [M_Turtle.assign]
    by_cases h1 : nameLt name k = true
    · simp [h1, M_Turtle.find, Ne.symm h]
    · by_cases h2 : nameLt k name = true
      · simp [h1, h2, M_Turtle.find, ih]
      · have hk : k = name :=
          eq_of_not_nameLt (by simpa using h2) (by simpa using h1)
        subst hk
        simp [h1, M_Turtle.find, Ne.symm h]

theorem length_assign (m : M_Turtle) (name : String) (t : Turtle) (h : m.find name = none) :
    (m.assign name t).length = m.length + 1 := by
  induction m with
  | nil => simp [M_Turtle.assign]
  | cons e rest ih =>
    obtain ⟨k, t'⟩ := e
    simp only [M_Turtle.find] at h
    by_cases hk : k = name
    · simp [hk] at h
    · simp only [hk, if_false] at h
      simp only [M_Turtle.assign]
      by_cases h1 : nameLt name k = true
      · simp [h1]
      · by_cases h2 : nameLt k name = true
        · simp [h1, h2, ih h]
        · exact absurd (eq_of_not_nameLt (by simpa using h2) (by simpa using h1)) hk

theorem length_assign_le (m : M_Turtle) (name : String) (t : Turtle) :
    (m.assign name t).length ≤ m.length + 1 := by
  induction m with
  | nil => simp [M_Turtle.assign]
  | cons e rest ih =>
    obtain ⟨k, t'⟩ := e
    simp only [M_Turtle.assign]
    by_cases h1 : nameLt name k = true
    · simp [h1]
    · by_cases h2 : nameLt k name = true
      · simp [h1, h2]; omega
      · simp [h1, h2]

theorem mem_keys_assign (m : M_Turtle) (name : String) (t : Turtle) (k : String) :
    k ∈ (m.assign name t).keys ↔ k = name ∨ k ∈ m.keys := by
  rw [← find_isSome_iff_mem_keys, ← find_isSome_iff_mem_keys]
  by_cases h : k = name
  · subst h; simp [find_assign_self]
  · rw [find_assign_ne _ _ _ _ h]; simp [h]

theorem WF_assign (m : M_Turtle) (name : String) (t : Turtle) (h : m.WF) :
    (m.assign name t).WF := by
  induction m with
  | nil => simp [M_Turtle.assign, M_Turtle.WF, M_Turtle.keys]
  | cons e rest ih =>
    obtain ⟨k, t'⟩ := e
    have hw : (∀ a ∈ M_Turtle.keys rest, nameLt k a = true) ∧ M_Turtle.WF rest := by
      simpa [M_Turtle.WF, M_Turtle.keys] using h
    simp only [M_Turtle.assign]
    by_cases h1 : nameLt name k = true
    · simp only [h1, if_true]
      show List.Pairwise _ (name :: k :: M_Turtle.keys rest)
      refine List.Pairwise.cons ?_ (by simpa [M_Turtle.WF, M_Turtle.keys] using h)
      intro a ha
      rcases List.mem_cons.mp ha with ha | ha
      · rw [ha]; exact h1
      · exact nameLt_trans h1 (hw.1 a ha)
    · by_cases h2 : nameLt k name = true
      · simp only [h1, h2, if_true, if_false]
        show List.Pairwise _ (k :: M_Turtle.keys (M_Turtle.assign rest name t))
        refine List.Pairwise.cons ?_ (ih hw.2)
        intro a ha
        rcases (mem_keys_assign rest name t a).mp ha with ha | ha
        · rw [ha]; exact h2
        · exact hw.1 a ha
      · have hk : k = name :=
          eq_of_not_nameLt (by simpa using h2) (by simpa using h1)
        subst hk
        simp only [h1, if_false]
        exact h

theorem find_erase_ne (m : M_Turtle) (name other : String) (h : other ≠ name) :
    (m.erase name).find other = m.find other := by
  induction m with
  | nil => simp [M_Turtle.erase]
  | cons e rest ih =>
    obtain ⟨k, t'⟩ := e
    simp only [M_Turtle.erase]
    by_cases hk : k = name
    · subst hk
      simp [M_Turtle.find, Ne.symm h]
    · simp [hk, M_Turtle.find, ih]

theorem find_erase_self (m : M_Turtle) (name : String) (h : m.WF) :
    (m.erase name).find name = none := by
  induction m with
  | nil => simp [M_Turtle.erase, M_Turtle.find]
  | cons e rest ih =>
    obtain ⟨k, t'⟩ := e
    have hw : (∀ a ∈ M_Turtle.keys rest, nameLt k a = true) ∧ M_Turtle.WF rest := by
      simpa [M_Turtle.WF, M_Turtle.keys] using h
    simp only [M_Turtle.erase]
    by_cases hk : k = name
    · subst hk
      simp only [if_true]
      rw [find_eq_none_iff]
      intro hm
      exact ne_of_nameLt (hw.1 k hm) rfl
    · simp [hk, M_Turtle.find, ih hw.2]

theorem length_erase (m : M_Turtle) (name : String) (h : (m.find name).isSome = true) :
    (m.erase name).length + 1 = m.length := by
  induction m with
  | nil => simp [M_Turtle.find] at h
  | cons e rest ih =>
    obtain ⟨k, t'⟩ := e
    simp only [M_Turtle.find] at h
    simp only [M_Turtle.erase]
    by_cases hk : k = name
    · simp [hk]
    · simp only [hk, if_false] at h
      simp [hk, ih h]

theorem mem_keys_erase (m : M_Turtle) (name : String) (k : String) (h : k ∈ (m.erase name).keys) :
    k ∈ m.keys := by
  induction m with
  | nil => simp [M_Turtle.erase, M_Turtle.keys] at h
  | cons e rest ih =>
    obtain ⟨k', t'⟩ := e
    simp only [M_Turtle.erase] at h
    by_cases hk : k' = name
    · simp only [hk, if_true] at h
      simp only [M_Turtle.keys, List.map_cons, List.mem_cons]
      exact Or.inr h
    · simp only [hk, if_false, M_Turtle.keys, List.map_cons, List.mem_cons] at h
      simp only [M_Turtle.keys, List.map_cons, List.mem_cons]
      rcases h with h | h
      · exact Or.inl h
      · exact Or.inr (ih h)

theorem WF_erase (m : M_Turtle) (name : String) (h : m.WF) : (m.erase name).WF := by
  induction m with
  | nil => simpa [M_Turtle.erase] using h
  | cons e rest ih =>
    obtain ⟨k, t'⟩ := e
    have hw : (∀ a ∈ M_Turtle.keys rest, nameLt k a = true) ∧ M_Turtle.WF rest := by
      simpa [M_Turtle.WF, M_Turtle.keys] using h
    simp only [M_Turtle.erase]
    by_cases hk : k = name
    · simp only [hk, if_true]; exact hw.2
    · simp only [hk, if_false]
      show List.Pairwise _ (k :: M_Turtle.keys (M_Turtle.erase rest name))
      exact List.Pairwise.cons (fun a ha => hw.1 a (mem_keys_erase rest name a ha)) (ih hw.2)

/-! ## The auto-naming loop -/

theorem autoNameLoop_spec (m : M_Turtle) (fuel : Nat) : ∀ (c N : Nat),
    autoNameLoop m fuel c = some N →
      c < N ∧ N ≤ c + fuel ∧ m.find (turtleName N) = none ∧
      ∀ k, c < k → k < N → (m.find (turtleName k)).isSome = true := by
  induction fuel with
  | zero => intro c N h; simp [autoNameLoop] at h
  | succ f ih =>
    intro c N h
    simp only [autoNameLoop] at h
    by_cases hc : (m.find (turtleName (c + 1))).isSome = true
    · simp only [hc, if_true] at h
      obtain ⟨h1, h2, h3, h4⟩ := ih (c + 1) N h
      refine ⟨by omega, by omega, h3, ?_⟩
      intro k hk1 hk2
      by_cases hk : k = c + 1
      · rw [hk]; exact hc
      · exact h4 k (by omega) hk2
    · simp only [hc] at h
      have hN : c + 1 = N := by simpa using h
      subst hN
      refine ⟨by omega, by omega, ?_, ?_⟩
      · cases hf : m.find (turtleName (c + 1)) with
        | none => rfl
        | some t => simp [hf] at hc
      · intro k hk1 hk2; omega

theorem autoNameLoop_of_free (m : M_Turtle) (fuel : Nat) : ∀ (c k : Nat),
    c < k → k ≤ c + fuel → m.find (turtleName k) = none →
      ∃ N, autoNameLoop m fuel c = some N := by
  induction fuel with
  | zero => intro c k h1 h2 _; omega
  | succ f ih =>
    intro c k h1 h2 h3
    simp only [autoNameLoop]
    by_cases hc : (m.find (turtleName (c + 1))).isSome = true
    · simp only [hc, if_true]
      have hk : k ≠ c + 1 := by
        intro e; rw [e] at h3; simp [h3] at hc
      exact ih (c + 1) k (by omega) (by omega) h3
    · exact ⟨c + 1, by simp [hc]⟩

/-- Among the `n + 1` candidates after `c` one is not a key of a map with `n` entries. -/
theorem exists_free_name (m : M_Turtle) (c : Nat) :
    ∃ k, c < k ∧ k ≤ c + m.length + 1 ∧ m.find (turtleName k) = none := by
  by_contra hcon
  push_neg at hcon
  have hall : ∀ k ∈ Finset.Icc (c + 1) (c + m.length + 1), turtleName k ∈ m.keys.toFinset := by
    intro k hk
    rw [Finset.mem_Icc] at hk
    rw [List.mem_toFinset, ← find_isSome_iff_mem_keys]
    have := hcon k (by omega) (by omega)
    cases hf : m.find (turtleName k) with
    | none => exact absurd hf this
    | some t => rfl
  have hcard := Finset.card_le_card_of_injOn turtleName hall
    (fun a _ b _ h => turtleName_injective h)
  have h1 : (Finset.Icc (c + 1) (c + m.length + 1)).card = m.length + 1 := by
    rw [Nat.card_Icc]; omega
  have h2 : m.keys.toFinset.card ≤ m.length := by
    calc m.keys.toFinset.card ≤ m.keys.length := List.toFinset_card_le _
      _ = m.length := by simp [M_Turtle.keys]
  omega

theorem autoNameLoop_total (m : M_Turtle) (fuel c : Nat) (h : m.length < fuel) :
    ∃ N, autoNameLoop m fuel c = some N ∧ c < N ∧ N ≤ c + m.length + 1 ∧
      m.find (turtleName N) = none ∧
      ∀ k, c < k → k < N → (m.find (turtleName k)).isSome = true := by
  obtain ⟨k, hk1, hk2, hk3⟩ := exists_free_name m c
  obtain ⟨N, hN⟩ := autoNameLoop_of_free m fuel c k hk1 (by omega) hk3
  obtain ⟨h1, _, h3, h4⟩ := autoNameLoop_spec m fuel c N hN
  refine ⟨N, hN, h1, ?_, h3, h4⟩
  by_contra hlt
  have := h4 k hk1 (by omega)
  simp [hk3] at this

/-! ## `spawnTurtle` -/

theorem spawnTurtle_auto (fuel : Nat) (s : TurtleFrame) (x y angle : ℚ) (index : Nat)
    (h : s.turtles_.length < fuel) :
    ∃ N, s.spawnTurtle fuel "" x y angle index =
        some (({ s with
          id_counter_ := N,
          turtles_ := s.turtles_.assign (turtleName N)
            ⟨index, ⟨x, s.height_in_meters_ - y⟩, angle⟩ }).update, turtleName N) ∧
      s.id_counter_ < N ∧ N ≤ s.id_counter_ + s.turtles_.length + 1 ∧
      s.turtles_.find (turtleName N) = none ∧
      ∀ k, s.id_counter_ < k → k < N → (s.turtles_.find (turtleName k)).isSome = true := by
  obtain ⟨N, hN, h1, h2, h3, h4⟩ := autoNameLoop_total s.turtles_ fuel s.id_counter_ h
  refine ⟨N, ?_, h1, h2, h3, h4⟩
  have he : ("" : String).isEmpty = true := rfl
  simp only [TurtleFrame.spawnTurtle, he, if_true, hN]

theorem spawnTurtle_named (fuel : Nat) (s : TurtleFrame) (name : String) (x y angle : ℚ)
    (index : Nat) (hne : name ≠ "") :
    s.spawnTurtle fuel name x y angle index =
      if s.hasTurtle name then some (s, "")
      else some (({ s with
        turtles_ := s.turtles_.assign name ⟨index, ⟨x, s.height_in_meters_ - y⟩, angle⟩ }).update,
        name) := by
  have he : name.isEmpty = false := (isEmpty_eq_false_iff name).mpr hne
  simp only [TurtleFrame.spawnTurtle, he]
  rfl

/-! ## Claims about spawn, kill, clear and reset -/

theorem spawn_duplicate (fuel rnd : Nat) (s : TurtleFrame) (name : String) (x y theta : ℚ)
    (hne : name ≠ "") (hhas : s.hasTurtle name = true) :
    s.spawnTurtleRand fuel rnd name x y theta = some (s, "") ∧
    spawn_call_back fuel rnd s name x y theta = some (s, false, none) := by
  have h : s.spawnTurtleRand fuel rnd name x y theta = some (s, "") := by
    rw [TurtleFrame.spawnTurtleRand, spawnTurtle_named _ _ _ _ _ _ _ hne]
    simp [hhas]
  have he : ("" : String).isEmpty = true := rfl
  exact ⟨h, by simp [spawn_call_back, h, he]⟩

/-- C1: for every frame and every non-empty name that is not a key of the registry,
`spawnTurtle` returns exactly that name and the registry then holds the new turtle under it
(and the spawn service reports success with that name); a spawn of the same name issued right
afterwards returns the empty string, the spawn service reports failure, and the frame (agent
map, id counter, canvas and everything else) is left as it was. -/
theorem spawn_unused_name_then_duplicate (fuel rnd rnd2 : Nat) (s : TurtleFrame) (name : String)
    (x y theta x2 y2 theta2 : ℚ) (index2 : Nat)
    (hne : name ≠ "") (hfree : name ∉ s.turtles_.keys) :
    ∃ s1 : TurtleFrame,
      s.spawnTurtleRand fuel rnd name x y theta = some (s1, name) ∧
      spawn_call_back fuel rnd s name x y theta = some (s1, true, some name) ∧
      s1.turtles_.find name =
        some ⟨rnd % turtle_images_size, ⟨x, s.height_in_meters_ - y⟩, theta⟩ ∧
      name ∈ s1.turtles_.keys ∧
      s1.spawnTurtle fuel name x2 y2 theta2 index2 = some (s1, "") ∧
      s1.spawnTurtleRand fuel rnd2 name x2 y2 theta2 = some (s1, "") ∧
      spawn_call_back fuel rnd2 s1 name x2 y2 theta2 = some (s1, false, none) := by
  have hno : s.hasTurtle name = false := by
    simp [TurtleFrame.hasTurtle, (find_eq_none_iff s.turtles_ name).mpr hfree]
  have hemp : name.isEmpty = false := (isEmpty_eq_false_iff name).mpr hne
  have h1 : s.spawnTurtleRand fuel rnd name x y theta =
      some (({ s with
        turtles_ := s.turtles_.assign name
          ⟨rnd % turtle_images_size, ⟨x, s.height_in_meters_ - y⟩, theta⟩ }).update, name) := by
    simp [TurtleFrame.spawnTurtleRand, spawnTurtle_named _ _ _ _ _ _ _ hne, hno]
  refine ⟨_, h1, ?_, ?_, ?_, ?_, ?_, ?_⟩
  · simp [spawn_call_back, h1, hemp]
  · simp [TurtleFrame.update, find_assign_self]
  · rw [← find_isSome_iff_mem_keys]
    simp [TurtleFrame.update, find_assign_self]
  · rw [spawnTurtle_named _ _ _ _ _ _ _ hne]
    simp [TurtleFrame.hasTurtle, TurtleFrame.update, find_assign_self]
  · rw [TurtleFrame.spawnTurtleRand, spawnTurtle_named _ _ _ _ _ _ _ hne]
    simp [TurtleFrame.hasTurtle, TurtleFrame.update, find_assign_self]
  · exact (spawn_duplicate fuel rnd2 _ name x2 y2 theta2 hne
      (by simp [TurtleFrame.hasTurtle, TurtleFrame.update, find_assign_self])).2

/-- C4: the kill service fails (returns `false`) exactly when the name is not a key of the
registry, and a failing kill returns the frame it was given: agent map (hence agent count), id
counter and canvas are unchanged. -/
theorem kill_fails_iff_absent (s : TurtleFrame) (name : String) :
    ((kill_call_back s name).2 = false ↔ name ∉ s.turtles_.keys) ∧
    ((kill_call_back s name).2 = false →
      (kill_call_back s name).1 = s ∧
      (kill_call_back s name).1.turtles_ = s.turtles_ ∧
      (kill_call_back s name).1.turtles_.length = s.turtles_.length ∧
      (kill_call_back s name).1.id_counter_ = s.id_counter_ ∧
      (kill_call_back s name).1.path_image_ = s.path_image_) := by
  rw [← find_eq_none_iff]
  cases hf : s.turtles_.find name with
  | none => simp [kill_call_back, hf]
  | some t => simp [kill_call_back, hf]

/-- C5: for every frame whose registry is a well-formed map and every name present in it, the
kill service succeeds and removes exactly that turtle: afterwards the name is absent, every
other name maps to the same turtle as before, the number of turtles has dropped by exactly one,
and the id counter and the canvas are unchanged. -/
theorem kill_present_removes_exactly_one (s : TurtleFrame) (name : String)
    (hwf : s.turtles_.WF) (hmem : name ∈ s.turtles_.keys) :
    (kill_call_back s name).2 = true ∧
    (kill_call_back s name).1.turtles_.find name = none ∧
    name ∉ (kill_call_back s name).1.turtles_.keys ∧
    (∀ other, other ≠ name →
      (kill_call_back s name).1.turtles_.find other = s.turtles_.find other) ∧
    (kill_call_back s name).1.turtles_.length + 1 = s.turtles_.length ∧
    (kill_call_back s name).1.id_counter_ = s.id_counter_ ∧
    (kill_call_back s name).1.path_image_ = s.path_image_ ∧
    (kill_call_back s name).1.turtles_.WF := by
  have hsome : (s.turtles_.find name).isSome = true :=
    (find_isSome_iff_mem_keys s.turtles_ name).mpr hmem
  cases hf : s.turtles_.find name with
  | none => simp [hf] at hsome
  | some t =>
    have hk : kill_call_back s name =
        (({ s with turtles_ := s.turtles_.erase name }).update, true) := by
      simp [kill_call_back, hf]
    rw [hk]
    refine ⟨rfl, ?_, ?_, ?_, ?_, rfl, rfl, ?_⟩
    · exact find_erase_self s.turtles_ name hwf
    · rw [← find_eq_none_iff]
      exact find_erase_self s.turtles_ name hwf
    · intro other ho
      exact find_erase_ne s.turtles_ name other ho
    · exact length_erase s.turtles_ name hsome
    · exact WF_erase s.turtles_ name hwf

theorem clear_pixels (s : TurtleFrame) :
    ∀ p ∈ s.clear.path_image_.pixels, p = qRgb 0x45 0x56 0xff := by
  intro p hp
  simp only [TurtleFrame.clear, TurtleFrame.update, QImage.fill, List.mem_map] at hp
  obtain ⟨_, _, h⟩ := hp
  rw [← h]; rfl

theorem clear_pixels_length (s : TurtleFrame) :
    s.clear.path_image_.pixels.length = s.path_image_.pixels.length := by
  simp [TurtleFrame.clear, TurtleFrame.update, QImage.fill]

/-- Whatever parameters the node was started with, `clear()` paints every pixel
`qRgb(0x45, 0x56, 0xff)`, keeps the canvas size, and leaves the agent map (names and turtles)
and the id counter unchanged. -/
theorem clear_fills_canvas_only (s : TurtleFrame) :
    (∀ p ∈ s.clear.path_image_.pixels, p = qRgb 0x45 0x56 0xff) ∧
    qRgb 0x45 0x56 0xff = 0xff4556ff ∧
    s.clear.path_image_.pixels.length = s.path_image_.pixels.length ∧
    s.clear.path_image_.width = s.path_image_.width ∧
    s.clear.path_image_.height = s.path_image_.height ∧
    s.clear.turtles_ = s.turtles_ ∧
    s.clear.id_counter_ = s.id_counter_ ∧
    (clear_call_back s).1 = s.clear := by
  exact ⟨clear_pixels s, by decide, clear_pixels_length s, rfl, rfl, rfl, rfl, rfl⟩

/-- C7 against the code: the claim has `clear()` paint the background colour, which the node's
parameters `background_r`, `background_g`, `background_b` configure and which is the triple
`0x45, 0x56, 0xff` only by default. At `frame2`, whose node is configured with a black
background, `clear()` still paints every pixel `qRgb(0x45, 0x56, 0xff)`: the values of the three
`declare_parameter` calls are dropped. The agent map and the id counter are unchanged, as the
claim says. -/
theorem clear_ignores_configured_background :
    frame2.configuredBackground = 0xff000000 ∧
    frame2.clear.path_image_.pixels = [0xff4556ff, 0xff4556ff, 0xff4556ff, 0xff4556ff] ∧
    ¬ (∀ p ∈ frame2.clear.path_image_.pixels, p = frame2.configuredBackground) ∧
    (∀ p ∈ frame2.clear.path_image_.pixels, p = qRgb DEFAULT_BG_R DEFAULT_BG_G DEFAULT_BG_B) ∧
    frame2.clear.turtles_ = frame2.turtles_ ∧
    frame2.clear.id_counter_ = frame2.id_counter_ := by
  refine ⟨by decide, by decide, by decide, by decide, rfl, rfl⟩

/-- C10: the auto-naming loop ends for every registry: with `n` turtles and id counter `c`, any
budget of more than `n` iterations suffices, and the number `N` the loop ends at satisfies
`c < N ≤ c + n + 1`, that is at most `n + 1` increments are performed. -/
theorem autoNameLoop_terminates_within (m : M_Turtle) (c fuel : Nat) (hfuel : m.length < fuel) :
    ∃ N, autoNameLoop m fuel c = some N ∧ c < N ∧ N ≤ c + m.length + 1 ∧
      N - c ≤ m.length + 1 ∧
      autoNameLoop m (m.length + 1) c = some N := by
  obtain ⟨N, hN, h1, h2, h3, h4⟩ := autoNameLoop_total m fuel c hfuel
  obtain ⟨N', hN', h1', _, h3', h4'⟩ := autoNameLoop_total m (m.length + 1) c (by omega)
  have hEq : N' = N := by
    rcases Nat.lt_trichotomy N' N with hlt | heq | hgt
    · have := h4 N' h1' hlt
      simp [h3'] at this
    · exact heq
    · have := h4' N h1 hgt
      simp [h3] at this
  subst hEq
  exact ⟨N', hN, h1, h2, by omega, hN'⟩

/-! ## The periodic sweep -/

theorem sweepLoop_calls (upd : TurtleUpdate) (dt w h : ℚ) (m : M_Turtle) : ∀ acc : Sweep,
    (sweepLoop upd dt w h m acc).calls.map Prod.fst = acc.calls.map Prod.fst ++ m := by
  induction m with
  | nil => intro acc; simp [sweepLoop]
  | cons e rest ih =>
    intro acc
    obtain ⟨k, t⟩ := e
    simp only [sweepLoop]
    rw [ih]
    simp

theorem sweepLoop_keys (upd : TurtleUpdate) (dt w h : ℚ) (m : M_Turtle) : ∀ acc : Sweep,
    (sweepLoop upd dt w h m acc).turtles_.keys = acc.turtles_.keys ++ m.keys := by
  induction m with
  | nil => intro acc; simp [sweepLoop, M_Turtle.keys]
  | cons e rest ih =>
    intro acc
    obtain ⟨k, t⟩ := e
    simp only [sweepLoop]
    rw [ih]
    simp [M_Turtle.keys]

theorem sweepLoop_modified (upd : TurtleUpdate) (dt w h : ℚ) (m : M_Turtle) : ∀ acc : Sweep,
    acc.modified = acc.calls.any (fun c => c.2) →
    (sweepLoop upd dt w h m acc).modified =
      (sweepLoop upd dt w h m acc).calls.any (fun c => c.2) := by
  induction m with
  | nil => intro acc hacc; simpa [sweepLoop] using hacc
  | cons e rest ih =>
    intro acc hacc
    obtain ⟨k, t⟩ := e
    simp only [sweepLoop]
    apply ih
    simp [hacc, List.any_append]

theorem sweepLoop_cons (upd : TurtleUpdate) (dt w h : ℚ) (k : String) (t : Turtle)
    (rest : M_Turtle) (acc : Sweep) :
    sweepLoop upd dt w h ((k, t) :: rest) acc =
      sweepLoop upd dt w h rest
        { turtles_ := acc.turtles_ ++ [(k, (upd dt t acc.path_image_ w h).1)],
          path_image_ := (upd dt t acc.path_image_ w h).2.1,
          modified := acc.modified || (upd dt t acc.path_image_ w h).2.2,
          calls := acc.calls ++ [((k, t), (upd dt t acc.path_image_ w h).2.2)] } := rfl

theorem canvasAfter_cons (upd : TurtleUpdate) (dt w h : ℚ) (img : QImage) (e : String × Turtle)
    (rest : M_Turtle) :
    canvasAfter upd dt w h img (e :: rest) =
      canvasAfter upd dt w h (upd dt e.2 img w h).2.1 rest := rfl

theorem sweepLoop_calls_prefix (upd : TurtleUpdate) (dt w h : ℚ) (m : M_Turtle) :
    ∀ acc : Sweep, ∃ l, (sweepLoop upd dt w h m acc).calls = acc.calls ++ l := by
  induction m with
  | nil => intro acc; exact ⟨[], by simp [sweepLoop]⟩
  | cons e rest ih =>
    intro acc
    obtain ⟨k, t⟩ := e
    simp only [sweepLoop]
    obtain ⟨l, hl⟩ := ih
      { turtles_ := acc.turtles_ ++ [(k, (upd dt t acc.path_image_ w h).1)],
        path_image_ := (upd dt t acc.path_image_ w h).2.1,
        modified := acc.modified || (upd dt t acc.path_image_ w h).2.2,
        calls := acc.calls ++ [((k, t), (upd dt t acc.path_image_ w h).2.2)] }
    exact ⟨((k, t), (upd dt t acc.path_image_ w h).2.2) :: l, by rw [hl]; simp⟩

theorem sweepLoop_turtles_prefix (upd : TurtleUpdate) (dt w h : ℚ) (m : M_Turtle) :
    ∀ acc : Sweep, ∃ l, (sweepLoop upd dt w h m acc).turtles_ = acc.turtles_ ++ l := by
  induction m with
  | nil => intro acc; exact ⟨[], by simp [sweepLoop]⟩
  | cons e rest ih =>
    intro acc
    obtain ⟨k, t⟩ := e
    simp only [sweepLoop]
    obtain ⟨l, hl⟩ := ih
      { turtles_ := acc.turtles_ ++ [(k, (upd dt t acc.path_image_ w h).1)],
        path_image_ := (upd dt t acc.path_image_ w h).2.1,
        modified := acc.modified || (upd dt t acc.path_image_ w h).2.2,
        calls := acc.calls ++ [((k, t), (upd dt t acc.path_image_ w h).2.2)] }
    exact ⟨(k, (upd dt t acc.path_image_ w h).1) :: l, by rw [hl]; simp⟩

theorem sweepLoop_canvas (upd : TurtleUpdate) (dt w h : ℚ) (m : M_Turtle) : ∀ acc : Sweep,
    (sweepLoop upd dt w h m acc).path_image_ = canvasAfter upd dt w h acc.path_image_ m := by
  induction m with
  | nil => intro acc; simp [sweepLoop, canvasAfter]
  | cons e rest ih =>
    intro acc
    obtain ⟨k, t⟩ := e
    simp only [sweepLoop]
    rw [ih]
    simp [canvasAfter]

/-- The call made on the entry `e` that follows the entries `pre`: it is logged at the position
of `e`, with the flag `Turtle::update` returns on the canvas the calls on `pre` have left. -/
theorem sweepLoop_call_at (upd : TurtleUpdate) (dt w h : ℚ) (pre : M_Turtle) :
    ∀ (acc : Sweep) (e : String × Turtle) (post : M_Turtle),
    (sweepLoop upd dt w h (pre ++ e :: post) acc).calls[acc.calls.length + pre.length]? =
      some (e, (upd dt e.2 (canvasAfter upd dt w h acc.path_image_ pre) w h).2.2) := by
  induction pre with
  | nil =>
    intro acc e post
    obtain ⟨k, t⟩ := e
    simp only [List.nil_append, sweepLoop, canvasAfter, List.foldl_nil, List.length_nil,
      Nat.add_zero]
    obtain ⟨l, hl⟩ := sweepLoop_calls_prefix upd dt w h post
      { turtles_ := acc.turtles_ ++ [(k, (upd dt t acc.path_image_ w h).1)],
        path_image_ := (upd dt t acc.path_image_ w h).2.1,
        modified := acc.modified || (upd dt t acc.path_image_ w h).2.2,
        calls := acc.calls ++ [((k, t), (upd dt t acc.path_image_ w h).2.2)] }
    rw [hl]
    simp only [List.append_assoc, List.singleton_append]
    rw [List.getElem?_append_right (Nat.le_refl _)]
    simp
  | cons p pre ih =>
    intro acc e post
    obtain ⟨k, t⟩ := p
    have := ih
      { turtles_ := acc.turtles_ ++ [(k, (upd dt t acc.path_image_ w h).1)],
        path_image_ := (upd dt t acc.path_image_ w h).2.1,
        modified := acc.modified || (upd dt t acc.path_image_ w h).2.2,
        calls := acc.calls ++ [((k, t), (upd dt t acc.path_image_ w h).2.2)] } e post
    simp only [List.length_append, List.length_cons, List.length_nil] at this
    have hidx : acc.calls.length + (pre.length + 1) = acc.calls.length + (0 + 1) + pre.length := by
      omega
    rw [List.cons_append, sweepLoop_cons, canvasAfter_cons, List.length_cons, hidx]
    exact this

/-- The entry stored for `e`, which follows the entries `pre`: the same name with the turtle
`Turtle::update` leaves, called on the canvas the calls on `pre` have left. -/
theorem sweepLoop_turtle_at (upd : TurtleUpdate) (dt w h : ℚ) (pre : M_Turtle) :
    ∀ (acc : Sweep) (e : String × Turtle) (post : M_Turtle),
    (sweepLoop upd dt w h (pre ++ e :: post) acc).turtles_[acc.turtles_.length + pre.length]? =
      some (e.1, (upd dt e.2 (canvasAfter upd dt w h acc.path_image_ pre) w h).1) := by
  induction pre with
  | nil =>
    intro acc e post
    obtain ⟨k, t⟩ := e
    simp only [List.nil_append, sweepLoop, canvasAfter, List.foldl_nil, List.length_nil,
      Nat.add_zero]
    obtain ⟨l, hl⟩ := sweepLoop_turtles_prefix upd dt w h post
      { turtles_ := acc.turtles_ ++ [(k, (upd dt t acc.path_image_ w h).1)],
        path_image_ := (upd dt t acc.path_image_ w h).2.1,
        modified := acc.modified || (upd dt t acc.path_image_ w h).2.2,
        calls := acc.calls ++ [((k, t), (upd dt t acc.path_image_ w h).2.2)] }
    rw [hl]
    simp only [List.append_assoc, List.singleton_append]
    rw [List.getElem?_append_right (Nat.le_refl _)]
    simp
  | cons p pre ih =>
    intro acc e post
    obtain ⟨k, t⟩ := p
    have := ih
      { turtles_ := acc.turtles_ ++ [(k, (upd dt t acc.path_image_ w h).1)],
        path_image_ := (upd dt t acc.path_image_ w h).2.1,
        modified := acc.modified || (upd dt t acc.path_image_ w h).2.2,
        calls := acc.calls ++ [((k, t), (upd dt t acc.path_image_ w h).2.2)] } e post
    simp only [List.length_append, List.length_cons, List.length_nil] at this
    have hidx : acc.turtles_.length + (pre.length + 1) =
        acc.turtles_.length + (0 + 1) + pre.length := by
      omega
    rw [List.cons_append, sweepLoop_cons, canvasAfter_cons, List.length_cons, hidx]
    exact this

/-- Some logged call returned `true` exactly when `Turtle::update` returns `true` on some entry,
called on the canvas the calls on the entries before it have left. -/
theorem sweepLoop_any_flag (upd : TurtleUpdate) (dt w h : ℚ) (m : M_Turtle) (img : QImage) :
    (∃ c ∈ (sweepLoop upd dt w h m
        { turtles_ := [], path_image_ := img, modified := false, calls := [] }).calls,
        c.2 = true) ↔
      ∃ pre e post, m = pre ++ e :: post ∧
        (upd dt e.2 (canvasAfter upd dt w h img pre) w h).2.2 = true := by
  have hmap := sweepLoop_calls upd dt w h m
    { turtles_ := [], path_image_ := img, modified := false, calls := [] }
  simp only [List.map_nil, List.nil_append] at hmap
  constructor
  · rintro ⟨c, hc, hflag⟩
    obtain ⟨i, hi, hget⟩ := List.getElem_of_mem hc
    have hlen : (sweepLoop upd dt w h m
        { turtles_ := [], path_image_ := img, modified := false, calls := [] }).calls.length
          = m.length := by
      have := congrArg List.length hmap
      simpa using this
    have him : i < m.length := by omega
    have hsplit : m = m.take i ++ m[i] :: m.drop (i + 1) := by
      rw [← List.drop_eq_getElem_cons him, List.take_append_drop]
    have hat := sweepLoop_call_at upd dt w h (m.take i)
      { turtles_ := [], path_image_ := img, modified := false, calls := [] } m[i]
      (m.drop (i + 1))
    rw [← hsplit] at hat
    simp only [List.length_nil, Nat.zero_add, List.length_take, Nat.min_eq_left (Nat.le_of_lt him)]
      at hat
    rw [List.getElem?_eq_getElem hi, hget] at hat
    refine ⟨m.take i, m[i], m.drop (i + 1), hsplit, ?_⟩
    have hc2 := congrArg (fun o => o.map Prod.snd) hat
    simp only [Option.map_some', Option.some.injEq] at hc2
    rw [← hc2]; exact hflag
  · rintro ⟨pre, e, post, hm, hflag⟩
    have hat := sweepLoop_call_at upd dt w h pre
      { turtles_ := [], path_image_ := img, modified := false, calls := [] } e post
    rw [← hm] at hat
    simp only [List.length_nil, Nat.zero_add] at hat
    exact ⟨_, List.getElem?_mem hat, hflag⟩

/-- C8: a tick that runs while the last-update timestamp is still zero calls `Turtle::update`
on no turtle, requests no repaint, and leaves every turtle, the canvas and the frame count as
they were; it only stores the current time in the timestamp. -/
theorem updateTurtles_baseline_tick (upd : TurtleUpdate) (now : Nat) (s : TurtleFrame)
    (h : s.last_turtle_update_ = 0) :
    (s.updateTurtles upd now).2 = [] ∧
    (s.updateTurtles upd now).1.repaints = s.repaints ∧
    (s.updateTurtles upd now).1.turtles_ = s.turtles_ ∧
    (s.updateTurtles upd now).1.path_image_ = s.path_image_ ∧
    (s.updateTurtles upd now).1.frame_count_ = s.frame_count_ ∧
    (s.updateTurtles upd now).1.last_turtle_update_ = now ∧
    (s.updateTurtles upd now).1 = { s with last_turtle_update_ := now } := by
  simp [TurtleFrame.updateTurtles, h]

/-- C9: on a tick whose last-update timestamp is no longer zero, `updateTurtles` calls
`Turtle::update` on exactly the entries of the registry, each once and in the registry's
iteration order (strictly ascending names for a well-formed map), whatever the earlier calls
returned: the call on an entry is made on the canvas the calls on the entries before it have
left, its flag is the one logged, the turtle it leaves is stored under the same name, and the
canvas after the last call is the new canvas. One repaint is requested if some of these calls
returned `true` and none otherwise; and the frame count grows by exactly one. -/
theorem updateTurtles_sweeps_every_turtle (upd : TurtleUpdate) (now : Nat) (s : TurtleFrame)
    (h : s.last_turtle_update_ ≠ 0) :
    (s.updateTurtles upd now).2.map Prod.fst = s.turtles_ ∧
    (s.updateTurtles upd now).2.length = s.turtles_.length ∧
    (s.turtles_.WF →
      ((s.updateTurtles upd now).2.map (fun c => c.1.1)).Pairwise
        (fun a b => nameLt a b = true)) ∧
    (s.updateTurtles upd now).1.turtles_.keys = s.turtles_.keys ∧
    ((∃ c ∈ (s.updateTurtles upd now).2, c.2 = true) →
      (s.updateTurtles upd now).1.repaints = s.repaints + 1) ∧
    ((∀ c ∈ (s.updateTurtles upd now).2, c.2 = false) →
      (s.updateTurtles upd now).1.repaints = s.repaints) ∧
    ((s.updateTurtles upd now).1.repaints = s.repaints + 1 ↔
      ∃ c ∈ (s.updateTurtles upd now).2, c.2 = true) ∧
    (s.updateTurtles upd now).1.frame_count_ = s.frame_count_ + 1 ∧
    (s.updateTurtles upd now).1.last_turtle_update_ = s.last_turtle_update_ ∧
    (∀ pre e post, s.turtles_ = pre ++ e :: post →
      (s.updateTurtles upd now).2[pre.length]? =
        some (e, (upd ((1 / 1000) * s.update_timer_interval) e.2
          (canvasAfter upd ((1 / 1000) * s.update_timer_interval) s.width_in_meters_
            s.height_in_meters_ s.path_image_ pre)
          s.width_in_meters_ s.height_in_meters_).2.2) ∧
      (s.updateTurtles upd now).1.turtles_[pre.length]? =
        some (e.1, (upd ((1 / 1000) * s.update_timer_interval) e.2
          (canvasAfter upd ((1 / 1000) * s.update_timer_interval) s.width_in_meters_
            s.height_in_meters_ s.path_image_ pre)
          s.width_in_meters_ s.height_in_meters_).1)) ∧
    (s.updateTurtles upd now).1.turtles_.length = s.turtles_.length ∧
    (s.updateTurtles upd now).1.path_image_ =
      canvasAfter upd ((1 / 1000) * s.update_timer_interval) s.width_in_meters_
        s.height_in_meters_ s.path_image_ s.turtles_ ∧
    ((s.updateTurtles upd now).1.repaints = s.repaints + 1 ↔
      ∃ pre e post, s.turtles_ = pre ++ e :: post ∧
        (upd ((1 / 1000) * s.update_timer_interval) e.2
          (canvasAfter upd ((1 / 1000) * s.update_timer_interval) s.width_in_meters_
            s.height_in_meters_ s.path_image_ pre)
          s.width_in_meters_ s.height_in_meters_).2.2 = true) ∧
    ((s.updateTurtles upd now).1.repaints = s.repaints ∨
      (s.updateTurtles upd now).1.repaints = s.repaints + 1) := by
  have hcalls := sweepLoop_calls upd ((1 / 1000) * s.update_timer_interval)
    s.width_in_meters_ s.height_in_meters_ s.turtles_
    { turtles_ := [], path_image_ := s.path_image_, modified := false, calls := [] }
  have hkeys := sweepLoop_keys upd ((1 / 1000) * s.update_timer_interval)
    s.width_in_meters_ s.height_in_meters_ s.turtles_
    { turtles_ := [], path_image_ := s.path_image_, modified := false, calls := [] }
  have hmod := sweepLoop_modified upd ((1 / 1000) * s.update_timer_interval)
    s.width_in_meters_ s.height_in_meters_ s.turtles_
    { turtles_ := [], path_image_ := s.path_image_, modified := false, calls := [] } rfl
  have hcanvas := sweepLoop_canvas upd ((1 / 1000) * s.update_timer_interval)
    s.width_in_meters_ s.height_in_meters_ s.turtles_
    { turtles_ := [], path_image_ := s.path_image_, modified := false, calls := [] }
  have hflags := sweepLoop_any_flag upd ((1 / 1000) * s.update_timer_interval)
    s.width_in_meters_ s.height_in_meters_ s.turtles_ s.path_image_
  have hcallat : ∀ pre e post, s.turtles_ = pre ++ e :: post →
      (sweepLoop upd ((1 / 1000) * s.update_timer_interval)
        s.width_in_meters_ s.height_in_meters_ s.turtles_
        { turtles_ := [], path_image_ := s.path_image_, modified := false,
          calls := [] }).calls[pre.length]? =
        some (e, (upd ((1 / 1000) * s.update_timer_interval) e.2
          (canvasAfter upd ((1 / 1000) * s.update_timer_interval) s.width_in_meters_
            s.height_in_meters_ s.path_image_ pre)
          s.width_in_meters_ s.height_in_meters_).2.2) := by
    intro pre e post hsplit
    have := sweepLoop_call_at upd ((1 / 1000) * s.update_timer_interval)
      s.width_in_meters_ s.height_in_meters_ pre
      { turtles_ := [], path_image_ := s.path_image_, modified := false, calls := [] } e post
    rw [← hsplit] at this
    simpa using this
  have hturtleat : ∀ pre e post, s.turtles_ = pre ++ e :: post →
      (sweepLoop upd ((1 / 1000) * s.update_timer_interval)
        s.width_in_meters_ s.height_in_meters_ s.turtles_
        { turtles_ := [], path_image_ := s.path_image_, modified := false,
          calls := [] }).turtles_[pre.length]? =
        some (e.1, (upd ((1 / 1000) * s.update_timer_interval) e.2
          (canvasAfter upd ((1 / 1000) * s.update_timer_interval) s.width_in_meters_
            s.height_in_meters_ s.path_image_ pre)
          s.width_in_meters_ s.height_in_meters_).1) := by
    intro pre e post hsplit
    have := sweepLoop_turtle_at upd ((1 / 1000) * s.update_timer_interval)
      s.width_in_meters_ s.height_in_meters_ pre
      { turtles_ := [], path_image_ := s.path_image_, modified := false, calls := [] } e post
    rw [← hsplit] at this
    simpa using this
  simp only [List.map_nil, List.nil_append] at hcalls
  have hkeys' : (sweepLoop upd ((1 / 1000) * s.update_timer_interval)
      s.width_in_meters_ s.height_in_meters_ s.turtles_
      { turtles_ := [], path_image_ := s.path_image_, modified := false,
        calls := [] }).turtles_.keys = s.turtles_.keys := by
    rw [hkeys]; simp [M_Turtle.keys]
  have hnames : ∀ l : List ((String × Turtle) × Bool),
      l.map (fun c => c.1.1) = (l.map Prod.fst).map Prod.fst := by
    intro l; simp
  simp only [TurtleFrame.updateTurtles, h, if_false]
  generalize sweepLoop upd ((1 / 1000) * s.update_timer_interval)
      s.width_in_meters_ s.height_in_meters_ s.turtles_
      { turtles_ := [], path_image_ := s.path_image_, modified := false, calls := [] } = r at *
  have hany : r.modified = true ↔ ∃ c ∈ r.calls, c.2 = true := by
    rw [hmod, List.any_eq_true]
  have hlen : r.turtles_.length = s.turtles_.length := by
    have := congrArg List.length hkeys'
    simpa [M_Turtle.keys] using this
  refine ⟨hcalls, ?_, ?_, ?_, ?_, ?_, ?_, ?_, ?_, ?_, ?_, ?_, ?_, ?_⟩
  · rw [← hcalls]; simp
  · intro hwf
    rw [hnames, hcalls]
    exact hwf
  · cases hr : r.modified <;> simpa [TurtleFrame.update] using hkeys'
  · intro hex
    have hm : r.modified = true := hany.mpr hex
    simp [hm, TurtleFrame.update]
  · intro hall
    have hm : r.modified = false := by
      cases hr : r.modified with
      | false => rfl
      | true =>
        obtain ⟨c, hc, hc2⟩ := hany.mp hr
        rw [hall c hc] at hc2
        exact Bool.noConfusion hc2
    simp [hm]
  · rw [← hany]
    cases hr : r.modified <;> simp [TurtleFrame.update]
  · cases hr : r.modified <;> simp [TurtleFrame.update]
  · cases hr : r.modified <;> simp [TurtleFrame.update]
  · intro pre e post hsplit
    refine ⟨hcallat pre e post hsplit, ?_⟩
    cases hr : r.modified <;> simpa [TurtleFrame.update] using hturtleat pre e post hsplit
  · cases hr : r.modified <;> simpa [TurtleFrame.update] using hlen
  · cases hr : r.modified <;> simpa [TurtleFrame.update] using hcanvas
  · rw [← hflags, ← hany]
    cases hr : r.modified <;> simp [TurtleFrame.update]
  · cases hr : r.modified <;> simp [TurtleFrame.update]

/-! ## Sequences of requests -/

theorem length_erase_le (m : M_Turtle) (name : String) : (m.erase name).length ≤ m.length := by
  induction m with
  | nil => simp [M_Turtle.erase]
  | cons e rest ih =>
    obtain ⟨k, t⟩ := e
    simp only [M_Turtle.erase]
    by_cases hk : k = name
    · simp [hk]
    · simp [hk]; exact ih

theorem spawnTurtle_auto_fields (fuel : Nat) (s : TurtleFrame) (x y angle : ℚ) (index : Nat)
    (h : s.turtles_.length < fuel) :
    ∃ N s1, s.spawnTurtle fuel "" x y angle index = some (s1, turtleName N) ∧
      s1.id_counter_ = N ∧
      s1.turtles_ = s.turtles_.assign (turtleName N) ⟨index, ⟨x, s.height_in_meters_ - y⟩, angle⟩ ∧
      s1.path_image_ = s.path_image_ ∧
      s.id_counter_ < N ∧ N ≤ s.id_counter_ + s.turtles_.length + 1 ∧
      s.turtles_.find (turtleName N) = none ∧
      ∀ k, s.id_counter_ < k → k < N → (s.turtles_.find (turtleName k)).isSome = true := by
  obtain ⟨N, hN, h1, h2, h3, h4⟩ := spawnTurtle_auto fuel s x y angle index h
  exact ⟨N, _, hN, rfl, rfl, rfl, h1, h2, h3, h4⟩

theorem spawnTurtle_named_fields (fuel : Nat) (s : TurtleFrame) (name : String) (x y angle : ℚ)
    (index : Nat) (hne : name ≠ "") (hno : s.hasTurtle name = false) :
    ∃ s1, s.spawnTurtle fuel name x y angle index = some (s1, name) ∧
      s1.id_counter_ = s.id_counter_ ∧
      s1.turtles_ = s.turtles_.assign name ⟨index, ⟨x, s.height_in_meters_ - y⟩, angle⟩ ∧
      s1.path_image_ = s.path_image_ := by
  have h := spawnTurtle_named fuel s name x y angle index hne
  simp only [hno] at h
  exact ⟨_, h, rfl, rfl, rfl⟩

/-- One request: it is served when the budget exceeds the number of turtles; the registry grows
by at most one entry, the counter does not decrease, and an empty-name spawn returns
`turtleName N` for the new counter value `N`, above the old one. -/
theorem step_spec (fuel : Nat) (s : TurtleFrame) (op : Op) (h : s.turtles_.length < fuel) :
    ∃ s1 e, step fuel s op = some (s1, e) ∧
      s1.turtles_.length ≤ s.turtles_.length + 1 ∧
      s.id_counter_ ≤ s1.id_counter_ ∧
      (autoNames [e] = [] ∨
        (autoNames [e] = [turtleName s1.id_counter_] ∧ s.id_counter_ < s1.id_counter_)) := by
  cases op with
  | kill name =>
    refine ⟨(kill_call_back s name).1, Event.killed name (kill_call_back s name).2, rfl, ?_, ?_,
      Or.inl rfl⟩
    · cases hf : s.turtles_.find name with
      | none => simp [kill_call_back, hf]
      | some t =>
        simp only [kill_call_back, hf, TurtleFrame.update]
        have := length_erase_le s.turtles_ name
        omega
    · cases hf : s.turtles_.find name <;> simp [kill_call_back, hf, TurtleFrame.update]
  | spawn name x y theta rnd =>
    by_cases hn : name = ""
    · subst hn
      obtain ⟨N, s1, hsp, hc, ht, _, h1, _, _, _⟩ :=
        spawnTurtle_auto_fields fuel s x y theta (rnd % turtle_images_size) h
      have he : ("" : String).isEmpty = true := rfl
      refine ⟨s1, Event.spawned "" (turtleName N), ?_, ?_, ?_, Or.inr ⟨?_, ?_⟩⟩
      · simp only [step, TurtleFrame.spawnTurtleRand, hsp]
      · rw [ht]; exact length_assign_le s.turtles_ _ _
      · omega
      · simp [autoNames, he, hc]
      · omega
    · have hemp : name.isEmpty = false := (isEmpty_eq_false_iff name).mpr hn
      by_cases hh : s.hasTurtle name = true
      · refine ⟨s, Event.spawned name "", ?_, by omega, le_refl _, Or.inl ?_⟩
        · simp [step, TurtleFrame.spawnTurtleRand, spawnTurtle_named _ _ _ _ _ _ _ hn, hh]
        · simp [autoNames, hemp]
      · obtain ⟨s1, hsp, hc, ht, _⟩ := spawnTurtle_named_fields fuel s name x y theta
          (rnd % turtle_images_size) hn (by simpa using hh)
        refine ⟨s1, Event.spawned name name, ?_, ?_, ?_, Or.inl ?_⟩
        · simp only [step, TurtleFrame.spawnTurtleRand, hsp]
        · rw [ht]; exact length_assign_le s.turtles_ _ _
        · omega
        · simp [autoNames, hemp]

/-- A sequence of requests: all are served when the budget exceeds the number of turtles plus
the number of requests; the counter does not decrease; and the empty-name spawns return
`turtleName n` for strictly increasing `n`, all above the initial and up to the final counter. -/
theorem run_spec (fuel : Nat) (ops : List Op) : ∀ s : TurtleFrame,
    s.turtles_.length + ops.length < fuel →
    ∃ s1 evs, run fuel s ops = some (s1, evs) ∧
      evs.length = ops.length ∧
      s1.turtles_.length ≤ s.turtles_.length + ops.length ∧
      s.id_counter_ ≤ s1.id_counter_ ∧
      ∃ ns : List Nat, autoNames evs = ns.map turtleName ∧
        ns.Pairwise (fun a b => a < b) ∧
        ∀ n ∈ ns, s.id_counter_ < n ∧ n ≤ s1.id_counter_ := by
  induction ops with
  | nil =>
    intro s _
    exact ⟨s, [], rfl, rfl, by simp, le_refl _, [], rfl, List.Pairwise.nil, by simp⟩
  | cons op rest ih =>
    intro s h
    simp only [List.length_cons] at h
    obtain ⟨s1, e, hstep, hlen, hcnt, hnames⟩ := step_spec fuel s op (by omega)
    obtain ⟨s2, es, hrun, hevl, hlen2, hcnt2, ns, hns, hpw, hbd⟩ := ih s1 (by omega)
    have hauto : autoNames (e :: es) = autoNames [e] ++ autoNames es := by
      cases e with
      | killed n ok => simp [autoNames]
      | spawned rq rt =>
        by_cases hrq : rq.isEmpty = true
        · simp [autoNames, hrq]
        · simp [autoNames, hrq]
    refine ⟨s2, e :: es, ?_, by simp [hevl], ?_, by omega, ?_⟩
    · simp only [run, hstep, hrun]
    · simp only [List.length_cons]; omega
    · rcases hnames with hnil | ⟨hone, hlt⟩
      · refine ⟨ns, ?_, hpw, ?_⟩
        · rw [hauto, hnil, hns]; rfl
        · intro n hn
          have := hbd n hn
          omega
      · refine ⟨s1.id_counter_ :: ns, ?_, ?_, ?_⟩
        · rw [hauto, hone, hns]; rfl
        · refine List.Pairwise.cons ?_ hpw
          intro n hn
          exact (hbd n hn).1
        · intro n hn
          rcases List.mem_cons.mp hn with hn | hn
          · subst hn; omega
          · have := hbd n hn
            omega

theorem run_append (fuel : Nat) (ops1 ops2 : List Op) : ∀ (s s1 s2 : TurtleFrame)
    (evs1 evs2 : List Event),
    run fuel s ops1 = some (s1, evs1) → run fuel s1 ops2 = some (s2, evs2) →
    run fuel s (ops1 ++ ops2) = some (s2, evs1 ++ evs2) := by
  induction ops1 with
  | nil =>
    intro s s1 s2 evs1 evs2 h1 h2
    simp only [run, Option.some.injEq, Prod.mk.injEq] at h1
    obtain ⟨rfl, rfl⟩ := h1
    simpa using h2
  | cons op rest ih =>
    intro s s1 s2 evs1 evs2 h1 h2
    simp only [run] at h1
    cases hstep : step fuel s op with
    | none => simp [hstep] at h1
    | some r =>
      obtain ⟨sa, e⟩ := r
      simp only [hstep] at h1
      cases hrest : run fuel sa rest with
      | none => simp [hrest] at h1
      | some r2 =>
        obtain ⟨sb, es⟩ := r2
        simp only [hrest, Option.some.injEq, Prod.mk.injEq] at h1
        obtain ⟨rfl, rfl⟩ := h1
        have := ih sa sb s2 es evs2 hrest h2
        show run fuel s (op :: (rest ++ ops2)) = some (s2, e :: (es ++ evs2))
        simp only [run, hstep, this]

/-! ## Claims about auto-generated names -/

/-- C2: for every frame with id counter `c`, an empty-name spawn (given a budget above the number
of turtles) does not fail: it returns the non-empty name `turtleName N` where `N` is the least
number above `c` whose name is not a key of the registry; afterwards the counter is `N` and the
registry holds the new turtle under that name. In every sequence of spawn and kill requests the
numbers of the auto-generated names are strictly increasing and above the starting counter; and
from an empty registry with counter `0`, an empty-name spawn returns `"turtle1"` and, after
`"turtle1"` is killed, the next one returns `"turtle2"`. -/
theorem auto_spawn_least_free_number (fuel : Nat) (s : TurtleFrame) (x y theta : ℚ)
    (index rnd : Nat) (ops : List Op) (hfuel : s.turtles_.length + ops.length < fuel) :
    (∃ N s1, s.spawnTurtle fuel "" x y theta index = some (s1, turtleName N) ∧
      turtleName N ≠ "" ∧
      spawn_call_back fuel rnd s "" x y theta ≠ none ∧
      (∀ r, spawn_call_back fuel rnd s "" x y theta = some r →
        r.2 = (true, some (turtleName N))) ∧
      s.id_counter_ < N ∧
      turtleName N ∉ s.turtles_.keys ∧
      (∀ k, s.id_counter_ < k → k < N → turtleName k ∈ s.turtles_.keys) ∧
      s1.id_counter_ = N ∧
      s1.turtles_.find (turtleName N) = some ⟨index, ⟨x, s.height_in_meters_ - y⟩, theta⟩) ∧
    (∃ (s2 : TurtleFrame) (evs : List Event) (ns : List Nat),
      run fuel s ops = some (s2, evs) ∧
      autoNames evs = ns.map turtleName ∧
      ns.Pairwise (fun a b => a < b) ∧
      ∀ n ∈ ns, s.id_counter_ < n) ∧
    (s.turtles_ = [] → s.id_counter_ = 0 → ∀ x2 y2 theta2 rnd2,
      ∃ s3, run fuel s [Op.spawn "" x y theta rnd, Op.kill "turtle1",
          Op.spawn "" x2 y2 theta2 rnd2] =
        some (s3, [Event.spawned "" "turtle1", Event.killed "turtle1" true,
          Event.spawned "" "turtle2"])) := by
  refine ⟨?_, ?_, ?_⟩
  · obtain ⟨N, s1, hsp, hc, ht, _, h1, _, h3, h4⟩ :=
      spawnTurtle_auto_fields fuel s x y theta index (by omega)
    obtain ⟨N', s1', hsp', _, _, _, h1', _, h3', h4'⟩ :=
      spawnTurtle_auto_fields fuel s x y theta (rnd % turtle_images_size) (by omega)
    have hEq : N' = N := by
      rcases Nat.lt_trichotomy N' N with hlt | heq | hgt
      · have := h4 N' h1' hlt
        simp [h3'] at this
      · exact heq
      · have := h4' N h1 hgt
        simp [h3] at this
    subst hEq
    have hemp : (turtleName N').isEmpty = false :=
      (isEmpty_eq_false_iff _).mpr (turtleName_ne_empty N')
    have hcb : spawn_call_back fuel rnd s "" x y theta =
        some (s1', true, some (turtleName N')) := by
      simp [spawn_call_back, TurtleFrame.spawnTurtleRand, hsp', hemp]
    refine ⟨N', s1, hsp, turtleName_ne_empty N', ?_, ?_, h1, ?_, ?_, hc, ?_⟩
    · rw [hcb]; simp
    · intro r hr
      rw [hcb] at hr
      cases hr
      rfl
    · exact (find_eq_none_iff _ _).mp h3
    · intro k hk1 hk2
      exact (find_isSome_iff_mem_keys _ _).mp (h4 k hk1 hk2)
    · rw [ht, find_assign_self]
  · obtain ⟨s2, evs, hrun, _, _, _, ns, hns, hpw, hbd⟩ := run_spec fuel ops s hfuel
    exact ⟨s2, evs, ns, hrun, hns, hpw, fun n hn => (hbd n hn).1⟩
  · intro ht hc x2 y2 theta2 rnd2
    obtain ⟨f, rfl⟩ : ∃ f, fuel = f + 1 := ⟨fuel - 1, by omega⟩
    have he : ("" : String).isEmpty = true := rfl
    have hn1 : turtleName 1 = "turtle1" := by decide
    have hn2 : turtleName 2 = "turtle2" := by decide
    refine ⟨{ s with
      id_counter_ := 2,
      turtles_ := [("turtle2", ⟨rnd2 % turtle_images_size, ⟨x2, s.height_in_meters_ - y2⟩, theta2⟩)],
      repaints := s.repaints + 1 + 1 + 1 }, ?_⟩
    simp [run, step, TurtleFrame.spawnTurtleRand, TurtleFrame.spawnTurtle, he, ht, hc,
      autoNameLoop, M_Turtle.find, M_Turtle.assign, M_Turtle.erase, kill_call_back,
      TurtleFrame.update, hn1, hn2]

theorem kill_call_back_fields (s : TurtleFrame) (name : String) :
    (kill_call_back s name).1.id_counter_ = s.id_counter_ ∧
    (kill_call_back s name).1.turtles_.length ≤ s.turtles_.length ∧
    ((kill_call_back s name).2 = true ↔ name ∈ s.turtles_.keys) := by
  rw [← find_isSome_iff_mem_keys]
  cases hf : s.turtles_.find name with
  | none => simp [kill_call_back, hf]
  | some t =>
    have hk : kill_call_back s name =
        (({ s with turtles_ := s.turtles_.erase name }).update, true) := by
      simp [kill_call_back, hf]
    rw [hk]
    exact ⟨rfl, length_erase_le s.turtles_ name, by simp⟩

/-- C3 (as the code has it): in every sequence of spawn and kill requests, started from any
frame, a name removed by a kill is not returned by any later empty-name spawn provided the name
was itself returned by an earlier empty-name spawn of the sequence, or is not `turtleName k` for
any `k` above the id counter at the moment of the kill. -/
theorem freed_name_not_reused_by_auto_spawn (fuel : Nat) (s : TurtleFrame) (ops1 : List Op)
    (name : String) (ops2 : List Op)
    (hfuel : s.turtles_.length + ops1.length + ops2.length + 1 < fuel) :
    ∃ (s1 : TurtleFrame) (evs1 : List Event) (s2 : TurtleFrame) (ok : Bool)
      (evs2 : List Event),
      run fuel s ops1 = some (s1, evs1) ∧
      evs1.length = ops1.length ∧
      run fuel s (ops1 ++ Op.kill name :: ops2) =
        some (s2, evs1 ++ Event.killed name ok :: evs2) ∧
      (ok = true ↔ name ∈ s1.turtles_.keys) ∧
      ((name ∈ autoNames evs1 ∨ ∀ k, s1.id_counter_ < k → name ≠ turtleName k) →
        name ∉ autoNames evs2) := by
  obtain ⟨s1, evs1, hrun1, hlen1, hsz1, _, ns1, hns1, _, hbd1⟩ :=
    run_spec fuel ops1 s (by omega)
  obtain ⟨hkc, hkl, hkok⟩ := kill_call_back_fields s1 name
  obtain ⟨s2, evs2, hrun2, _, _, _, ns2, hns2, _, hbd2⟩ :=
    run_spec fuel ops2 (kill_call_back s1 name).1 (by omega)
  have hrunk : run fuel s1 (Op.kill name :: ops2) =
      some (s2, Event.killed name (kill_call_back s1 name).2 :: evs2) := by
    simp only [run, step, hrun2]
  refine ⟨s1, evs1, s2, (kill_call_back s1 name).2, evs2, hrun1, hlen1,
    run_append fuel ops1 _ s s1 s2 evs1 _ hrun1 hrunk, hkok, ?_⟩
  intro hcase hmem
  rw [hns2, List.mem_map] at hmem
  obtain ⟨n2, hn2, hname2⟩ := hmem
  have hgt : s1.id_counter_ < n2 := by
    have := (hbd2 n2 hn2).1
    omega
  rcases hcase with hauto | hform
  · rw [hns1, List.mem_map] at hauto
    obtain ⟨n1, hn1, hname1⟩ := hauto
    have hle := (hbd1 n1 hn1).2
    have : n1 = n2 := turtleName_injective (hname1.trans hname2.symm)
    omega
  · exact hform n2 hgt hname2.symm

/-- C3 fails as stated: from the empty registry with counter `0`, the caller-chosen name
`"turtle1"` is spawned, killed, and then handed out again by the next empty-name spawn. -/
theorem freed_explicit_name_is_reused :
    (∃ s2, run 5 frame0 [Op.spawn "turtle1" 1 1 0 0, Op.kill "turtle1", Op.spawn "" 1 1 0 0] =
      some (s2, [Event.spawned "turtle1" "turtle1", Event.killed "turtle1" true,
        Event.spawned "" "turtle1"])) ∧
    ¬ (∀ (fuel : Nat) (s : TurtleFrame) (ops1 : List Op) (name : String) (ops2 : List Op)
        (s2 : TurtleFrame) (evs1 evs2 : List Event),
        evs1.length = ops1.length →
        run fuel s (ops1 ++ Op.kill name :: ops2) =
          some (s2, evs1 ++ Event.killed name true :: evs2) →
        name ∉ autoNames evs2) := by
  have hrun : run 5 frame0 [Op.spawn "turtle1" 1 1 0 0, Op.kill "turtle1", Op.spawn "" 1 1 0 0] =
      some ({ frame0 with
          id_counter_ := 1,
          turtles_ := [("turtle1", ⟨0, ⟨1, frame0.height_in_meters_ - 1⟩, 0⟩)],
          repaints := 3 },
        [Event.spawned "turtle1" "turtle1", Event.killed "turtle1" true,
          Event.spawned "" "turtle1"]) := by
    rfl
  refine ⟨⟨_, hrun⟩, ?_⟩
  intro hall
  have := hall 5 frame0 [Op.spawn "turtle1" 1 1 0 0] "turtle1" [Op.spawn "" 1 1 0 0] _
    [Event.spawned "turtle1" "turtle1"] [Event.spawned "" "turtle1"] rfl hrun
  exact this (by decide)

/-! ## The map invariant along the operations -/

theorem spawnTurtle_WF (fuel : Nat) (s : TurtleFrame) (name : String) (x y angle : ℚ)
    (index : Nat) (s1 : TurtleFrame) (r : String)
    (h : s.spawnTurtle fuel name x y angle index = some (s1, r)) (hwf : s.turtles_.WF) :
    s1.turtles_.WF := by
  simp only [TurtleFrame.spawnTurtle] at h
  by_cases he : name.isEmpty = true
  · simp only [he, if_true] at h
    cases hl : autoNameLoop s.turtles_ fuel s.id_counter_ with
    | none => simp [hl] at h
    | some c =>
      simp only [hl, Option.some.injEq, Prod.mk.injEq] at h
      rw [← h.1]
      exact WF_assign s.turtles_ _ _ hwf
  · have he' : name.isEmpty = false := by simpa using he
    simp only [he', Bool.false_eq_true, if_false] at h
    by_cases hh : s.hasTurtle name = true
    · simp only [hh, if_true, Option.some.injEq, Prod.mk.injEq] at h
      rw [← h.1]
      exact hwf
    · have hh' : s.hasTurtle name = false := by simpa using hh
      simp only [hh', Bool.false_eq_true, if_false, Option.some.injEq, Prod.mk.injEq] at h
      rw [← h.1]
      exact WF_assign s.turtles_ _ _ hwf

theorem kill_call_back_WF (s : TurtleFrame) (name : String) (hwf : s.turtles_.WF) :
    (kill_call_back s name).1.turtles_.WF := by
  cases hf : s.turtles_.find name with
  | none => simpa [kill_call_back, hf] using hwf
  | some t =>
    have hk : kill_call_back s name =
        (({ s with turtles_ := s.turtles_.erase name }).update, true) := by
      simp [kill_call_back, hf]
    rw [hk]
    exact WF_erase s.turtles_ name hwf

theorem step_WF (fuel : Nat) (s : TurtleFrame) (op : Op) (s1 : TurtleFrame) (e : Event)
    (h : step fuel s op = some (s1, e)) (hwf : s.turtles_.WF) : s1.turtles_.WF := by
  cases op with
  | kill name =>
    simp only [step, Option.some.injEq, Prod.mk.injEq] at h
    rw [← h.1]
    exact kill_call_back_WF s name hwf
  | spawn name x y theta rnd =>
    simp only [step, TurtleFrame.spawnTurtleRand] at h
    cases hs : s.spawnTurtle fuel name x y theta (rnd % turtle_images_size) with
    | none => simp [hs] at h
    | some r =>
      obtain ⟨sa, ra⟩ := r
      simp only [hs, Option.some.injEq, Prod.mk.injEq] at h
      rw [← h.1]
      exact spawnTurtle_WF fuel s name x y theta _ sa ra hs hwf

theorem run_WF (fuel : Nat) (ops : List Op) : ∀ (s s1 : TurtleFrame) (evs : List Event),
    run fuel s ops = some (s1, evs) → s.turtles_.WF → s1.turtles_.WF := by
  induction ops with
  | nil =>
    intro s s1 evs h hwf
    simp only [run, Option.some.injEq, Prod.mk.injEq] at h
    rw [← h.1]
    exact hwf
  | cons op rest ih =>
    intro s s1 evs h hwf
    simp only [run] at h
    cases hstep : step fuel s op with
    | none => simp [hstep] at h
    | some r =>
      obtain ⟨sa, e⟩ := r
      simp only [hstep] at h
      cases hrest : run fuel sa rest with
      | none => simp [hrest] at h
      | some r2 =>
        obtain ⟨sb, es⟩ := r2
        simp only [hrest, Option.some.injEq, Prod.mk.injEq] at h
        rw [← h.1]
        exact ih sa sb es hrest (step_WF fuel s op sa e hstep hwf)

theorem updateTurtles_WF (upd : TurtleUpdate) (now : Nat) (s : TurtleFrame)
    (hwf : s.turtles_.WF) : (s.updateTurtles upd now).1.turtles_.WF := by
  by_cases h : s.last_turtle_update_ = 0
  · simpa [TurtleFrame.updateTurtles, h] using hwf
  · have hkeys := sweepLoop_keys upd ((1 / 1000) * s.update_timer_interval)
      s.width_in_meters_ s.height_in_meters_ s.turtles_
      { turtles_ := [], path_image_ := s.path_image_, modified := false, calls := [] }
    simp only [TurtleFrame.updateTurtles, h, if_false]
    generalize sweepLoop upd ((1 / 1000) * s.update_timer_interval)
      s.width_in_meters_ s.height_in_meters_ s.turtles_
      { turtles_ := [], path_image_ := s.path_image_, modified := false, calls := [] } = r at *
    have hk : r.turtles_.keys = s.turtles_.keys := by
      rw [hkeys]; simp [M_Turtle.keys]
    cases hr : r.modified <;> simpa [TurtleFrame.update, M_Turtle.WF, hk] using hwf

/-! ## The claims at concrete frames -/

/-- The spawn-then-duplicate statement at `frame1` with the unused name `"ada"`. -/
theorem spawn_unused_name_then_duplicate_witness :
    ("ada" : String) ≠ "" ∧ "ada" ∉ frame1.turtles_.keys ∧
    ∃ s1 : TurtleFrame,
      frame1.spawnTurtleRand 1 14 "ada" 2 3 0 = some (s1, "ada") ∧
      spawn_call_back 1 14 frame1 "ada" 2 3 0 = some (s1, true, some "ada") ∧
      s1.turtles_.find "ada" =
        some ⟨14 % turtle_images_size, ⟨2, frame1.height_in_meters_ - 3⟩, 0⟩ ∧
      "ada" ∈ s1.turtles_.keys ∧
      s1.spawnTurtle 1 "ada" 5 5 1 2 = some (s1, "") ∧
      s1.spawnTurtleRand 1 3 "ada" 5 5 1 = some (s1, "") ∧
      spawn_call_back 1 3 s1 "ada" 5 5 1 = some (s1, false, none) :=
  ⟨by decide, by decide,
    spawn_unused_name_then_duplicate 1 14 3 frame1 "ada" 2 3 0 5 5 1 2 (by decide) (by decide)⟩

/-- The auto-naming statement at `frame1`, where `"turtle1"` is taken, and a kill-then-spawn
sequence. -/
theorem auto_spawn_least_free_number_witness :
    frame1.turtles_.length + [Op.kill "turtle1", Op.spawn "" 1 1 0 0].length < 5 ∧
    (∃ N s1, frame1.spawnTurtle 5 "" 1 1 0 0 = some (s1, turtleName N) ∧
      turtleName N ≠ "" ∧
      spawn_call_back 5 0 frame1 "" 1 1 0 ≠ none ∧
      (∀ r, spawn_call_back 5 0 frame1 "" 1 1 0 = some r →
        r.2 = (true, some (turtleName N))) ∧
      frame1.id_counter_ < N ∧
      turtleName N ∉ frame1.turtles_.keys ∧
      (∀ k, frame1.id_counter_ < k → k < N → turtleName k ∈ frame1.turtles_.keys) ∧
      s1.id_counter_ = N ∧
      s1.turtles_.find (turtleName N) = some ⟨0, ⟨1, frame1.height_in_meters_ - 1⟩, 0⟩) ∧
    (∃ (s2 : TurtleFrame) (evs : List Event) (ns : List Nat),
      run 5 frame1 [Op.kill "turtle1", Op.spawn "" 1 1 0 0] = some (s2, evs) ∧
      autoNames evs = ns.map turtleName ∧
      ns.Pairwise (fun a b => a < b) ∧
      ∀ n ∈ ns, frame1.id_counter_ < n) :=
  ⟨by decide,
    (auto_spawn_least_free_number 5 frame1 1 1 0 0 0 [Op.kill "turtle1", Op.spawn "" 1 1 0 0]
      (by decide)).1,
    (auto_spawn_least_free_number 5 frame1 1 1 0 0 0 [Op.kill "turtle1", Op.spawn "" 1 1 0 0]
      (by decide)).2.1⟩

/-- The no-reuse statement at `frame0` for the auto-generated and then killed `"turtle1"`. -/
theorem freed_name_not_reused_by_auto_spawn_witness :
    frame0.turtles_.length + [Op.spawn "" 1 1 0 0].length + [Op.spawn "" 2 2 0 0].length + 1 < 6 ∧
    ∃ (s1 : TurtleFrame) (evs1 : List Event) (s2 : TurtleFrame) (ok : Bool)
      (evs2 : List Event),
      run 6 frame0 [Op.spawn "" 1 1 0 0] = some (s1, evs1) ∧
      evs1.length = [Op.spawn "" 1 1 0 0].length ∧
      run 6 frame0 ([Op.spawn "" 1 1 0 0] ++ Op.kill "turtle1" :: [Op.spawn "" 2 2 0 0]) =
        some (s2, evs1 ++ Event.killed "turtle1" ok :: evs2) ∧
      (ok = true ↔ "turtle1" ∈ s1.turtles_.keys) ∧
      (("turtle1" ∈ autoNames evs1 ∨ ∀ k, s1.id_counter_ < k → "turtle1" ≠ turtleName k) →
        "turtle1" ∉ autoNames evs2) :=
  ⟨by decide,
    freed_name_not_reused_by_auto_spawn 6 frame0 [Op.spawn "" 1 1 0 0] "turtle1"
      [Op.spawn "" 2 2 0 0] (by decide)⟩

/-- The kill statement at `frame1` for the present name `"leo"`. -/
theorem kill_present_removes_exactly_one_witness :
    frame1.turtles_.WF ∧ "leo" ∈ frame1.turtles_.keys ∧
    (kill_call_back frame1 "leo").2 = true ∧
    (kill_call_back frame1 "leo").1.turtles_.find "leo" = none ∧
    "leo" ∉ (kill_call_back frame1 "leo").1.turtles_.keys ∧
    (∀ other, other ≠ "leo" →
      (kill_call_back frame1 "leo").1.turtles_.find other = frame1.turtles_.find other) ∧
    (kill_call_back frame1 "leo").1.turtles_.length + 1 = frame1.turtles_.length ∧
    (kill_call_back frame1 "leo").1.id_counter_ = frame1.id_counter_ ∧
    (kill_call_back frame1 "leo").1.path_image_ = frame1.path_image_ ∧
    (kill_call_back frame1 "leo").1.turtles_.WF :=
  ⟨by decide, by decide,
    kill_present_removes_exactly_one frame1 "leo" (by decide) (by decide)⟩

/-- The baseline-tick statement at `frame2`, which holds two turtles and whose timestamp is
zero. -/
theorem updateTurtles_baseline_tick_witness :
    frame2.last_turtle_update_ = 0 ∧
    (frame2.updateTurtles sampleUpdate 99).2 = [] ∧
    (frame2.updateTurtles sampleUpdate 99).1.repaints = frame2.repaints ∧
    (frame2.updateTurtles sampleUpdate 99).1.turtles_ = frame2.turtles_ ∧
    (frame2.updateTurtles sampleUpdate 99).1.path_image_ = frame2.path_image_ ∧
    (frame2.updateTurtles sampleUpdate 99).1.frame_count_ = frame2.frame_count_ ∧
    (frame2.updateTurtles sampleUpdate 99).1.last_turtle_update_ = 99 ∧
    (frame2.updateTurtles sampleUpdate 99).1 = { frame2 with last_turtle_update_ := 99 } :=
  ⟨by decide, updateTurtles_baseline_tick sampleUpdate 99 frame2 (by decide)⟩

/-- The sweep statement at `frame1`: both turtles are visited in order, the call on
`"turtle1"` is made on the canvas the call on `"leo"` has left and reports a change, the moved
turtle is stored, and one repaint is requested. -/
theorem updateTurtles_sweeps_every_turtle_witness :
    frame1.last_turtle_update_ ≠ 0 ∧
    (frame1.updateTurtles sampleUpdate 99).2.map Prod.fst = frame1.turtles_ ∧
    ((frame1.updateTurtles sampleUpdate 99).2.map (fun c => c.1.1)).Pairwise
      (fun a b => nameLt a b = true) ∧
    (frame1.updateTurtles sampleUpdate 99).1.repaints = frame1.repaints + 1 ∧
    (frame1.updateTurtles sampleUpdate 99).1.frame_count_ = frame1.frame_count_ + 1 ∧
    (frame1.updateTurtles sampleUpdate 99).2[1]? =
      some (("turtle1", ⟨1, ⟨3, 4⟩, 0⟩),
        (sampleUpdate ((1 / 1000) * frame1.update_timer_interval) ⟨1, ⟨3, 4⟩, 0⟩
          (canvasAfter sampleUpdate ((1 / 1000) * frame1.update_timer_interval)
            frame1.width_in_meters_ frame1.height_in_meters_ frame1.path_image_
            [("leo", ⟨0, ⟨1, 2⟩, 0⟩)])
          frame1.width_in_meters_ frame1.height_in_meters_).2.2) ∧
    (frame1.updateTurtles sampleUpdate 99).1.turtles_[1]? =
      some ("turtle1",
        (sampleUpdate ((1 / 1000) * frame1.update_timer_interval) ⟨1, ⟨3, 4⟩, 0⟩
          (canvasAfter sampleUpdate ((1 / 1000) * frame1.update_timer_interval)
            frame1.width_in_meters_ frame1.height_in_meters_ frame1.path_image_
            [("leo", ⟨0, ⟨1, 2⟩, 0⟩)])
          frame1.width_in_meters_ frame1.height_in_meters_).1) ∧
    (frame1.updateTurtles sampleUpdate 99).1.path_image_ =
      canvasAfter sampleUpdate ((1 / 1000) * frame1.update_timer_interval)
        frame1.width_in_meters_ frame1.height_in_meters_ frame1.path_image_ frame1.turtles_ :=
  ⟨by decide,
    (updateTurtles_sweeps_every_turtle sampleUpdate 99 frame1 (by decide)).1,
    (updateTurtles_sweeps_every_turtle sampleUpdate 99 frame1 (by decide)).2.2.1 (by decide),
    (updateTurtles_sweeps_every_turtle sampleUpdate 99 frame1 (by decide)).2.2.2.2.1
      ⟨(("turtle1", ⟨1, ⟨3, 4⟩, 0⟩), true),
        by simp [TurtleFrame.updateTurtles, frame1, sweepLoop, sampleUpdate], rfl⟩,
    (updateTurtles_sweeps_every_turtle sampleUpdate 99 frame1 (by decide)).2.2.2.2.2.2.2.1,
    ((updateTurtles_sweeps_every_turtle sampleUpdate 99 frame1 (by decide)).2.2.2.2.2.2.2.2.2.1
      [("leo", ⟨0, ⟨1, 2⟩, 0⟩)] ("turtle1", ⟨1, ⟨3, 4⟩, 0⟩) [] rfl).1,
    ((updateTurtles_sweeps_every_turtle sampleUpdate 99 frame1 (by decide)).2.2.2.2.2.2.2.2.2.1
      [("leo", ⟨0, ⟨1, 2⟩, 0⟩)] ("turtle1", ⟨1, ⟨3, 4⟩, 0⟩) [] rfl).2,
    (updateTurtles_sweeps_every_turtle sampleUpdate 99 frame1
      (by decide)).2.2.2.2.2.2.2.2.2.2.2.1⟩

/-- The loop bound at the registry of `frame1` with a budget of three iterations. -/
theorem autoNameLoop_terminates_within_witness :
    frame1.turtles_.length < 3 ∧
    ∃ N, autoNameLoop frame1.turtles_ 3 0 = some N ∧ 0 < N ∧ N ≤ 0 + frame1.turtles_.length + 1 ∧
      N - 0 ≤ frame1.turtles_.length + 1 ∧
      autoNameLoop frame1.turtles_ (frame1.turtles_.length + 1) 0 = some N :=
  ⟨by decide, autoNameLoop_terminates_within frame1.turtles_ 0 3 (by decide)⟩

end turtlesim
